import Mathlib

/-!
Verification of the Shadow configuration module
(`src/configuration/shd-configuration.h`).

The header under verification declares the `SimulationTime` type and its
unit constants, the MAGIC liveness-tag macros, the `Configuration` struct
and the three functions `configuration_new`, `configuration_free` and
`configuration_getLogLevel`.  The constants, macros and the struct layout
are embedded directly from the header; the bodies of the three functions
are not part of the header, so they are modelled from the specification
(each such definition says so in its doc comment).
-/

/-! ## Simulation time (embedded from the header)

`typedef guint64 SimulationTime;` — a 64-bit unsigned nanosecond count.
We model `guint64` values as natural numbers; `simTimeBound = 2^64` is the
number of representable values.
-/

/-- Number of values of a `guint64`: `2^64`. -/
def simTimeBound : Nat := 2 ^ 64

/-- `#define SIMTIME_INVALID G_MAXUINT64` — the largest `guint64`. -/
def SIMTIME_INVALID : Nat := simTimeBound - 1

/-- `#define SIMTIME_ONE_NANOSECOND G_GUINT64_CONSTANT(1)` -/
def SIMTIME_ONE_NANOSECOND : Nat := 1

/-- `#define SIMTIME_ONE_MICROSECOND G_GUINT64_CONSTANT(1000)` -/
def SIMTIME_ONE_MICROSECOND : Nat := 1000

/-- `#define SIMTIME_ONE_MILLISECOND G_GUINT64_CONSTANT(1000000)` -/
def SIMTIME_ONE_MILLISECOND : Nat := 1000000

/-- `#define SIMTIME_ONE_SECOND G_GUINT64_CONSTANT(1000000000)` -/
def SIMTIME_ONE_SECOND : Nat := 1000000000

/-- `#define SIMTIME_ONE_MINUTE G_GUINT64_CONSTANT(60000000000)` -/
def SIMTIME_ONE_MINUTE : Nat := 60000000000

/-- `#define SIMTIME_ONE_HOUR G_GUINT64_CONSTANT(3600000000000)` -/
def SIMTIME_ONE_HOUR : Nat := 3600000000000

/-! ## The MAGIC liveness tag (embedded from the header)

The header defines, inside an `#if 1` block:
  `#define MAGIC_VALUE 0xAABBCCDD`
  `#define MAGIC_DECLARE guint magic`
  `#define MAGIC_INIT(object) object->magic = MAGIC_VALUE`
  `#define MAGIC_ASSERT(object) g_assert(object && (object->magic == MAGIC_VALUE))`
  `#define MAGIC_CLEAR(object) object->magic = 0`
The `#else` branch defines all five macros as empty (no-ops).
-/

/-- `#define MAGIC_VALUE 0xAABBCCDD` -/
def MAGIC_VALUE : Nat := 0xAABBCCDD

/-! ## The Configuration struct (embedded from the header)

`struct _Configuration` fields, with the glib pointers to the option
context/groups omitted (they carry no configured value).  `gchar*` strings
may be NULL, hence `Option String`; `gint` is modelled as `Int`;
`gboolean` as `Bool`; the `GQueue*` of filenames as a list; the
`MAGIC_DECLARE` member (`guint magic`) as a natural number.
-/

structure Configuration where
  logLevelInput : Option String
  nWorkerThreads : Int
  printSoftwareVersion : Bool
  minRunAhead : Int
  runPingExample : Bool
  runEchoExample : Bool
  runFileExample : Bool
  inputXMLFilenames : List String
  magic : Nat
deriving Repr, DecidableEq

/-- `MAGIC_INIT(object)`: set the magic member to `MAGIC_VALUE`. -/
def MAGIC_INIT (c : Configuration) : Configuration :=
  { c with magic := MAGIC_VALUE }

/-- `MAGIC_ASSERT(object)`: the asserted condition
`object->magic == MAGIC_VALUE` (the non-null half of `g_assert(object && ...)`
is carried by the model passing a value, not a pointer). -/
def MAGIC_ASSERT (c : Configuration) : Bool :=
  c.magic == MAGIC_VALUE

/-- `MAGIC_CLEAR(object)`: set the magic member to `0`. -/
def MAGIC_CLEAR (c : Configuration) : Configuration :=
  { c with magic := 0 }

/-- The condition of the preprocessor block that selects the real MAGIC
macros, as a function of whether this is a debug build.  In the header the
block is `#if 1`: the condition is the constant `1`, independent of any
debug flag, so the macros are compiled in for every build. -/
def magicGuardCompiledIn (_debugBuild : Bool) : Bool :=
  true

/-- The `#else` branch's `MAGIC_ASSERT(object)`: an empty expansion, a
no-op that asserts nothing (its asserted condition is vacuously true). -/
def MAGIC_ASSERT_disabled (_c : Configuration) : Bool :=
  true

/-! ## The log-level resolver

`configuration_getLogLevel` is only declared in the header; its body is
modelled from the spec.
-/

/-- Modelled from the spec: the internal ordered severity enumeration of
the LogLevelResolver ("error < warning < info < debug"). -/
inductive Severity where
  | error
  | warning
  | info
  | debug
deriving Repr, DecidableEq

/-- Lower-case an ASCII letter, leaving every other character unchanged. -/
def lowerChar (c : Char) : Char :=
  if 65 ≤ c.toNat ∧ c.toNat ≤ 90 then Char.ofNat (c.toNat + 32) else c

/-- The character list of a string with ASCII letters lower-cased. -/
def strLower (s : String) : List Char :=
  s.data.map lowerChar

/-- Modelled from the spec: the documented default severity returned for
unrecognized log-level strings.  The spec documents that such a default
exists but does not name the level; the model fixes it as `info`. -/
def defaultSeverity : Severity :=
  Severity.info

/-- Modelled from the spec: the pure, deterministic, case-insensitive
mapping from accepted level names ("error", "warning", "info", "debug")
to the severity enumeration; every unrecognized string maps to the
documented default severity. -/
def resolveLogLevel (s : String) : Severity :=
  if strLower s = "error".data then Severity.error
  else if strLower s = "warning".data then Severity.warning
  else if strLower s = "info".data then Severity.info
  else if strLower s = "debug".data then Severity.debug
  else defaultSeverity

/-- Whether a string is one of the resolver's recognized level names,
up to ASCII case. -/
def recognizedLevel (s : String) : Prop :=
  strLower s = "error".data ∨ strLower s = "warning".data ∨
    strLower s = "info".data ∨ strLower s = "debug".data

instance (s : String) : Decidable (recognizedLevel s) := by
  unfold recognizedLevel
  infer_instance

/-- Modelled from the spec: `configuration_getLogLevel` reads the stored
`logLevelInput` string (NULL resolves like the empty, unrecognized
string) and resolves it to a severity. -/
def configuration_getLogLevel (c : Configuration) : Severity :=
  resolveLogLevel (c.logLevelInput.getD "")

/-- State-passing form of `configuration_getLogLevel`: the accessor's
result together with the configuration object as it is left after the
call (the modelled body performs reads only). -/
def configuration_getLogLevelS (c : Configuration) : Severity × Configuration :=
  (configuration_getLogLevel c, c)

/-- Modelled from the spec: `configuration_free` destroys a live object;
destruction clears the liveness tag (`MAGIC_CLEAR`), so later liveness
assertions fail. -/
def configuration_free (c : Configuration) : Configuration :=
  MAGIC_CLEAR c

/-! ## Decimal numerals

Helpers for command-line integer values: printing a natural number as a
decimal token and parsing a decimal token back, with a round-trip proof.
-/

/-- The ASCII digit character for `n % 10`-style digits. -/
def digitChar (n : Nat) : Char :=
  Char.ofNat (48 + n)

/-- Whether a character is an ASCII decimal digit. -/
def isDigitChar (c : Char) : Bool :=
  48 ≤ c.toNat && c.toNat ≤ 57

/-- Most-significant-first decimal digits of `n`, prepended to `acc`.
Structural recursion on a fuel argument (any fuel above `n` is enough),
so that concrete numerals evaluate by `rfl`. -/
def natToChars : Nat → Nat → List Char → List Char
  | 0, _, acc => acc
  | fuel + 1, n, acc =>
    if n / 10 = 0 then digitChar (n % 10) :: acc
    else natToChars fuel (n / 10) (digitChar (n % 10) :: acc)

/-- The decimal representation of `n` as a string token. -/
def natRepr (n : Nat) : String :=
  ⟨natToChars (n + 1) n []⟩

/-- `10 ^ (number of decimal digits of n)`. -/
def tenPow (n : Nat) : Nat :=
  if h : n / 10 = 0 then 10 else 10 * tenPow (n / 10)
termination_by n
decreasing_by
  exact Nat.div_lt_self (Nat.pos_of_ne_zero (fun h0 => h (by simp [h0]))) (by norm_num)

/-- Accumulating decimal parser over a character list: fails on the first
non-digit character. -/
def parseNatAux : List Char → Nat → Option Nat
  | [], acc => some acc
  | c :: cs, acc =>
    if isDigitChar c then parseNatAux cs (acc * 10 + (c.toNat - 48)) else none

/-- Parse a decimal integer token: an optional leading minus sign
followed by at least one digit. -/
def parseIntStr (s : String) : Option Int :=
  match s.data with
  | [] => none
  | c :: cs =>
    if c = '-' then
      match cs with
      | [] => none
      | _ :: _ => (parseNatAux cs 0).map (fun n => -(n : Int))
    else (parseNatAux (c :: cs) 0).map (fun n => (n : Int))

theorem digitChar_toNat {d : Nat} (h : d < 10) : (digitChar d).toNat = 48 + d := by
  interval_cases d <;> rfl

theorem isDigitChar_digitChar {d : Nat} (h : d < 10) : isDigitChar (digitChar d) = true := by
  simp [isDigitChar, digitChar_toNat h]
  omega

theorem natToChars_append (fuel : Nat) :
    ∀ n acc, natToChars fuel n acc = natToChars fuel n [] ++ acc := by
  induction fuel with
  | zero => intro n acc; rfl
  | succ fuel ih =>
    intro n acc
    conv_lhs => rw [natToChars]
    conv_rhs => rw [natToChars]
    by_cases h : n / 10 = 0
    · simp [h]
    · rw [if_neg h, if_neg h]
      rw [ih, ih (n / 10) [digitChar (n % 10)]]
      simp

theorem parseNatAux_natToChars :
    ∀ fuel n, n < fuel → ∀ rest a,
      parseNatAux (natToChars fuel n [] ++ rest) a =
        parseNatAux rest (a * tenPow n + n) := by
  intro fuel
  induction fuel with
  | zero => intro n hn; exact absurd hn (Nat.not_lt_zero n)
  | succ fuel ih =>
    intro n hn rest a
    by_cases h : n / 10 = 0
    · have hlt : n < 10 := by omega
      have hmod : n % 10 = n := Nat.mod_eq_of_lt hlt
      conv_lhs => rw [natToChars]
      rw [tenPow]
      simp only [h, if_true, dite_true, hmod, List.cons_append, List.nil_append]
      rw [parseNatAux]
      simp [isDigitChar_digitChar hlt, digitChar_toNat hlt]
    · have hlt2 : n / 10 < fuel := by omega
      have hd : n % 10 < 10 := Nat.mod_lt _ (by norm_num)
      conv_lhs => rw [natToChars]
      rw [tenPow]
      simp only [h, if_false, dite_false]
      rw [natToChars_append fuel, List.append_assoc]
      rw [ih _ hlt2]
      simp only [List.cons_append, List.nil_append]
      rw [parseNatAux]
      simp only [isDigitChar_digitChar hd, if_true, digitChar_toNat hd]
      congr 1
      have hdm : 10 * (n / 10) + n % 10 = n := Nat.div_add_mod n 10
      have hexp : (a * tenPow (n / 10) + n / 10) * 10 + (48 + n % 10 - 48) =
          a * (10 * tenPow (n / 10)) + (10 * (n / 10) + n % 10) := by ring_nf; omega
      rw [hexp, hdm]

theorem natToChars_shape :
    ∀ fuel n, n < fuel → ∃ d t, d < 10 ∧ natToChars fuel n [] = digitChar d :: t := by
  intro fuel
  induction fuel with
  | zero => intro n hn; exact absurd hn (Nat.not_lt_zero n)
  | succ fuel ih =>
    intro n hn
    by_cases h : n / 10 = 0
    · exact ⟨n % 10, [], Nat.mod_lt _ (by norm_num), by rw [natToChars]; simp [h]⟩
    · have hlt2 : n / 10 < fuel := by omega
      obtain ⟨d, t, hd, ht⟩ := ih _ hlt2
      refine ⟨d, t ++ [digitChar (n % 10)], hd, ?_⟩
      rw [natToChars, if_neg h]
      rw [natToChars_append fuel, ht]
      simp

/-- Printing then parsing a natural number gives it back. -/
theorem parseIntStr_natRepr (n : Nat) : parseIntStr (natRepr n) = some (n : Int) := by
  obtain ⟨d, t, hd, ht⟩ := natToChars_shape (n + 1) n (Nat.lt_succ_self n)
  have hdata : (natRepr n).data = digitChar d :: t := ht
  have hne : digitChar d ≠ '-' := by
    intro hc
    have h1 : (digitChar d).toNat = 48 + d := digitChar_toNat hd
    rw [hc] at h1
    have h2 : ('-').toNat = 45 := rfl
    omega
  have hparse : parseNatAux (digitChar d :: t) 0 = some n := by
    have h0 := parseNatAux_natToChars (n + 1) n (Nat.lt_succ_self n) [] 0
    rw [List.append_nil, ht] at h0
    rw [h0]
    simp [parseNatAux]
  unfold parseIntStr
  rw [hdata]
  simp [hne, hparse]

/-! ## The argument parser

`configuration_new` is only declared in the header; its body is modelled
from the spec (section 4.1 ArgumentParser): three option groups
contributing the flags `--log-level <s>`, `--workers <n>` /
`--worker-threads <n>` / `-w <n>` (integer, >= 0), `--version`,
`--run-ahead <n>` (integer, >= 0), `--run-ping-example`,
`--run-echo-example`, `--run-file-example`; non-flag tokens are
positional input filenames, collected in order, each required to be
non-empty.  Parsing is single-pass and all-or-nothing: the first
malformed flag, out-of-range value or unknown flag aborts construction
with a diagnostic (the `Except.error` string models the stderr
diagnostic), and no configuration is returned.
-/

/-- How the parser dispatches on one command-line token. -/
inductive TokenKind where
  | logLevelFlag
  | workersFlag
  | versionFlag
  | runAheadFlag
  | pingFlag
  | echoFlag
  | fileFlag
  | unknownFlag
  | emptyTok
  | positionalTok
deriving Repr, DecidableEq

/-- Whether a token is flag-shaped (begins with a dash). -/
def isFlagToken (s : String) : Bool :=
  match s.data with
  | '-' :: _ => true
  | _ => false

/-- Modelled from the spec: classify one command-line token against the
flags of the three option groups. -/
def classifyToken (t : String) : TokenKind :=
  if t = "--log-level" then TokenKind.logLevelFlag
  else if t = "--workers" ∨ t = "--worker-threads" ∨ t = "-w" then TokenKind.workersFlag
  else if t = "--version" then TokenKind.versionFlag
  else if t = "--run-ahead" then TokenKind.runAheadFlag
  else if t = "--run-ping-example" then TokenKind.pingFlag
  else if t = "--run-echo-example" then TokenKind.echoFlag
  else if t = "--run-file-example" then TokenKind.fileFlag
  else if isFlagToken t then TokenKind.unknownFlag
  else if t = "" then TokenKind.emptyTok
  else TokenKind.positionalTok

/-- Modelled from the spec: the single-pass, all-or-nothing parse loop,
running over tokens paired with their classification.  Each recognized
value flag consumes the following token as its value; integer values
must parse and be non-negative; unknown flags, malformed or out-of-range
values, and empty positionals abort with a diagnostic. -/
def parseClassified : List (TokenKind × String) → Configuration → Except String Configuration
  | [], c => Except.ok c
  | (k, t) :: rest, c =>
    match k with
    | TokenKind.logLevelFlag =>
      match rest with
      | [] => Except.error ("missing value for option " ++ t)
      | (_, v) :: rest2 => parseClassified rest2 { c with logLevelInput := some v }
    | TokenKind.workersFlag =>
      match rest with
      | [] => Except.error ("missing value for option " ++ t)
      | (_, v) :: rest2 =>
        match parseIntStr v with
        | none => Except.error ("malformed integer value for option " ++ t)
        | some n =>
          if n < 0 then Except.error ("out-of-range value for option " ++ t)
          else parseClassified rest2 { c with nWorkerThreads := n }
    | TokenKind.runAheadFlag =>
      match rest with
      | [] => Except.error ("missing value for option " ++ t)
      | (_, v) :: rest2 =>
        match parseIntStr v with
        | none => Except.error ("malformed integer value for option " ++ t)
        | some n =>
          if n < 0 then Except.error ("out-of-range value for option " ++ t)
          else parseClassified rest2 { c with minRunAhead := n }
    | TokenKind.versionFlag => parseClassified rest { c with printSoftwareVersion := true }
    | TokenKind.pingFlag => parseClassified rest { c with runPingExample := true }
    | TokenKind.echoFlag => parseClassified rest { c with runEchoExample := true }
    | TokenKind.fileFlag => parseClassified rest { c with runFileExample := true }
    | TokenKind.unknownFlag => Except.error ("unknown option " ++ t)
    | TokenKind.emptyTok => Except.error "empty positional argument"
    | TokenKind.positionalTok =>
      parseClassified rest { c with inputXMLFilenames := c.inputXMLFilenames ++ [t] }

/-- Modelled from the spec: the single-pass parse of the raw tokens —
classify each token against the option schema and run the parse loop. -/
def parseArgs (args : List String) (c : Configuration) : Except String Configuration :=
  parseClassified (args.map (fun t => (classifyToken t, t))) c

/-- The configuration before any flag is applied: glib option defaults
(NULL string, 0 integers, FALSE booleans, empty filename queue), with the
magic member still uninitialized (0). -/
def defaultConfig : Configuration :=
  { logLevelInput := none
    nWorkerThreads := 0
    printSoftwareVersion := false
    minRunAhead := 0
    runPingExample := false
    runEchoExample := false
    runFileExample := false
    inputXMLFilenames := []
    magic := 0 }

/-- Modelled from the spec: `configuration_new(argc, argv)` skips the
program name `argv[0]`, parses the remaining tokens in one pass, and on
success returns the configuration with its liveness tag set
(`MAGIC_INIT`); on failure it returns no object, only a diagnostic. -/
def configuration_new (argv : List String) : Except String Configuration :=
  (parseArgs (argv.drop 1) defaultConfig).map MAGIC_INIT

/-! ## Abstract command lines

`Arg` is one supplied command-line item: a recognized flag with its value,
or a positional filename.  `renderArgs` prints such items into the token
vector the user would type; quantifying over `List Arg` quantifies over
every argument vector made of recognized flags and positionals.
-/

inductive Arg where
  | logLevel (s : String)
  | workers (n : Nat)
  | version
  | runAhead (n : Nat)
  | pingExample
  | echoExample
  | fileExample
  | positional (s : String)
deriving Repr, DecidableEq

/-- The command-line tokens of one supplied item.  A numeric value is
rendered in decimal, so quantifying over `Arg.workers n` covers exactly
the in-range (non-negative) numeric values. -/
def Arg.render : Arg → List String
  | Arg.logLevel s => ["--log-level", s]
  | Arg.workers n => ["--workers", natRepr n]
  | Arg.version => ["--version"]
  | Arg.runAhead n => ["--run-ahead", natRepr n]
  | Arg.pingExample => ["--run-ping-example"]
  | Arg.echoExample => ["--run-echo-example"]
  | Arg.fileExample => ["--run-file-example"]
  | Arg.positional s => [s]

/-- The token vector of a whole abstract command line. -/
def renderArgs : List Arg → List String
  | [] => []
  | a :: l => a.render ++ renderArgs l

/-- A supplied item is well-formed: positional filenames are non-empty
and not flag-shaped (a flag-shaped token would be read as a flag, not a
filename); every other item is well-formed as built. -/
def Arg.wf : Arg → Prop
  | Arg.positional s => s ≠ "" ∧ isFlagToken s = false
  | _ => True

/-- The field update a supplied item performs on the configuration. -/
def applyArg (c : Configuration) : Arg → Configuration
  | Arg.logLevel s => { c with logLevelInput := some s }
  | Arg.workers n => { c with nWorkerThreads := (n : Int) }
  | Arg.version => { c with printSoftwareVersion := true }
  | Arg.runAhead n => { c with minRunAhead := (n : Int) }
  | Arg.pingExample => { c with runPingExample := true }
  | Arg.echoExample => { c with runEchoExample := true }
  | Arg.fileExample => { c with runFileExample := true }
  | Arg.positional s => { c with inputXMLFilenames := c.inputXMLFilenames ++ [s] }

theorem classifyToken_positional {s : String} (hs1 : s ≠ "") (hs2 : isFlagToken s = false) :
    classifyToken s = TokenKind.positionalTok := by
  have hflag : ∀ t : String, isFlagToken t = true → s ≠ t := by
    intro t htr hst
    rw [hst, htr] at hs2
    exact Bool.noConfusion hs2
  unfold classifyToken
  rw [if_neg (hflag "--log-level" (by decide)),
    if_neg (by rintro (h | h | h) <;> exact hflag _ (by decide) h),
    if_neg (hflag "--version" (by decide)),
    if_neg (hflag "--run-ahead" (by decide)),
    if_neg (hflag "--run-ping-example" (by decide)),
    if_neg (hflag "--run-echo-example" (by decide)),
    if_neg (hflag "--run-file-example" (by decide))]
  simp [hs2, hs1]

/-- Feeding the parser the tokens of one well-formed supplied item
performs exactly that item's field update and continues. -/
theorem parseArgs_render_step (a : Arg) (ha : a.wf) (rest : List String) (c : Configuration) :
    parseArgs (a.render ++ rest) c = parseArgs rest (applyArg c a) := by
  cases a with
  | logLevel s => rfl
  | version => rfl
  | pingExample => rfl
  | echoExample => rfl
  | fileExample => rfl
  | workers n =>
    have h := parseIntStr_natRepr n
    show (match parseIntStr (natRepr n) with
        | none => Except.error ("malformed integer value for option --workers")
        | some m =>
          if m < 0 then Except.error ("out-of-range value for option --workers")
          else parseArgs rest { c with nWorkerThreads := m } : Except String Configuration) = _
    rw [h]
    simp only []
    rw [if_neg (by omega)]
    rfl
  | runAhead n =>
    have h := parseIntStr_natRepr n
    show (match parseIntStr (natRepr n) with
        | none => Except.error ("malformed integer value for option --run-ahead")
        | some m =>
          if m < 0 then Except.error ("out-of-range value for option --run-ahead")
          else parseArgs rest { c with minRunAhead := m } : Except String Configuration) = _
    rw [h]
    simp only []
    rw [if_neg (by omega)]
    rfl
  | positional s =>
    obtain ⟨hs1, hs2⟩ := ha
    have hcl := classifyToken_positional hs1 hs2
    show parseClassified ((classifyToken s, s) :: rest.map (fun t => (classifyToken t, t))) c = _
    rw [hcl]
    rfl

/-- Feeding the parser a whole well-formed abstract command line followed
by further tokens folds every item's update over the configuration and
continues with the further tokens. -/
theorem parseArgs_renderArgs (l : List Arg) (hl : ∀ a ∈ l, a.wf) :
    ∀ rest c, parseArgs (renderArgs l ++ rest) c = parseArgs rest (l.foldl applyArg c) := by
  induction l with
  | nil => intro rest c; rfl
  | cons a l ih =>
    intro rest c
    have ha : a.wf := hl a (List.mem_cons_self a l)
    have hl2 : ∀ b ∈ l, b.wf := fun b hb => hl b (List.mem_cons_of_mem a hb)
    show parseArgs ((a.render ++ renderArgs l) ++ rest) c = _
    rw [List.append_assoc, parseArgs_render_step a ha, ih hl2]
    rfl

/-! ## Reading the supplied values off an abstract command line

These functions read, directly off the supplied items and independently
of the parser, what value each field was given: for a value flag the last
supplied value (a repeated flag overwrites its earlier value in a single
left-to-right pass), for a boolean flag whether it was supplied at all,
and for positionals the filename list in command-line order.
-/

/-- The last `--log-level` value supplied, if any. -/
def lastLogLevelArg : List Arg → Option String
  | [] => none
  | a :: l =>
    match lastLogLevelArg l with
    | some s => some s
    | none =>
      match a with
      | Arg.logLevel s => some s
      | _ => none

/-- The last `--workers` value supplied, if any. -/
def lastWorkersArg : List Arg → Option Nat
  | [] => none
  | a :: l =>
    match lastWorkersArg l with
    | some n => some n
    | none =>
      match a with
      | Arg.workers n => some n
      | _ => none

/-- The last `--run-ahead` value supplied, if any. -/
def lastRunAheadArg : List Arg → Option Nat
  | [] => none
  | a :: l =>
    match lastRunAheadArg l with
    | some n => some n
    | none =>
      match a with
      | Arg.runAhead n => some n
      | _ => none

/-- Whether `--version` was supplied. -/
def anyVersionArg : List Arg → Bool
  | [] => false
  | Arg.version :: _ => true
  | _ :: l => anyVersionArg l

/-- Whether `--run-ping-example` was supplied. -/
def anyPingArg : List Arg → Bool
  | [] => false
  | Arg.pingExample :: _ => true
  | _ :: l => anyPingArg l

/-- Whether `--run-echo-example` was supplied. -/
def anyEchoArg : List Arg → Bool
  | [] => false
  | Arg.echoExample :: _ => true
  | _ :: l => anyEchoArg l

/-- Whether `--run-file-example` was supplied. -/
def anyFileArg : List Arg → Bool
  | [] => false
  | Arg.fileExample :: _ => true
  | _ :: l => anyFileArg l

/-- The positional filenames supplied, in command-line order. -/
def positionalsOf : List Arg → List String
  | [] => []
  | Arg.positional s :: l => s :: positionalsOf l
  | _ :: l => positionalsOf l

theorem foldl_logLevelInput (l : List Arg) :
    ∀ c, (l.foldl applyArg c).logLevelInput =
      match lastLogLevelArg l with
      | some s => some s
      | none => c.logLevelInput := by
  induction l with
  | nil => intro c; rfl
  | cons a l ih =>
    intro c
    show (l.foldl applyArg (applyArg c a)).logLevelInput = _
    rw [ih]
    cases hL : lastLogLevelArg l with
    | some s => simp [lastLogLevelArg, hL]
    | none => cases a <;> simp [lastLogLevelArg, hL, applyArg]

theorem foldl_nWorkerThreads (l : List Arg) :
    ∀ c, (l.foldl applyArg c).nWorkerThreads =
      match lastWorkersArg l with
      | some n => (n : Int)
      | none => c.nWorkerThreads := by
  induction l with
  | nil => intro c; rfl
  | cons a l ih =>
    intro c
    show (l.foldl applyArg (applyArg c a)).nWorkerThreads = _
    rw [ih]
    cases hL : lastWorkersArg l with
    | some n => simp [lastWorkersArg, hL]
    | none => cases a <;> simp [lastWorkersArg, hL, applyArg]

theorem foldl_minRunAhead (l : List Arg) :
    ∀ c, (l.foldl applyArg c).minRunAhead =
      match lastRunAheadArg l with
      | some n => (n : Int)
      | none => c.minRunAhead := by
  induction l with
  | nil => intro c; rfl
  | cons a l ih =>
    intro c
    show (l.foldl applyArg (applyArg c a)).minRunAhead = _
    rw [ih]
    cases hL : lastRunAheadArg l with
    | some n => simp [lastRunAheadArg, hL]
    | none => cases a <;> simp [lastRunAheadArg, hL, applyArg]

theorem foldl_printSoftwareVersion (l : List Arg) :
    ∀ c, (l.foldl applyArg c).printSoftwareVersion =
      (c.printSoftwareVersion || anyVersionArg l) := by
  induction l with
  | nil => intro c; simp [anyVersionArg]
  | cons a l ih =>
    intro c
    show (l.foldl applyArg (applyArg c a)).printSoftwareVersion = _
    rw [ih]
    cases a <;> simp [anyVersionArg, applyArg]

theorem foldl_runPingExample (l : List Arg) :
    ∀ c, (l.foldl applyArg c).runPingExample =
      (c.runPingExample || anyPingArg l) := by
  induction l with
  | nil => intro c; simp [anyPingArg]
  | cons a l ih =>
    intro c
    show (l.foldl applyArg (applyArg c a)).runPingExample = _
    rw [ih]
    cases a <;> simp [anyPingArg, applyArg]

theorem foldl_runEchoExample (l : List Arg) :
    ∀ c, (l.foldl applyArg c).runEchoExample =
      (c.runEchoExample || anyEchoArg l) := by
  induction l with
  | nil => intro c; simp [anyEchoArg]
  | cons a l ih =>
    intro c
    show (l.foldl applyArg (applyArg c a)).runEchoExample = _
    rw [ih]
    cases a <;> simp [anyEchoArg, applyArg]

theorem foldl_runFileExample (l : List Arg) :
    ∀ c, (l.foldl applyArg c).runFileExample =
      (c.runFileExample || anyFileArg l) := by
  induction l with
  | nil => intro c; simp [anyFileArg]
  | cons a l ih =>
    intro c
    show (l.foldl applyArg (applyArg c a)).runFileExample = _
    rw [ih]
    cases a <;> simp [anyFileArg, applyArg]

theorem foldl_inputXMLFilenames (l : List Arg) :
    ∀ c, (l.foldl applyArg c).inputXMLFilenames =
      c.inputXMLFilenames ++ positionalsOf l := by
  induction l with
  | nil => intro c; simp [positionalsOf]
  | cons a l ih =>
    intro c
    show (l.foldl applyArg (applyArg c a)).inputXMLFilenames = _
    rw [ih]
    cases a <;> simp [positionalsOf, applyArg]

theorem foldl_magic (l : List Arg) :
    ∀ c, (l.foldl applyArg c).magic = c.magic := by
  induction l with
  | nil => intro c; rfl
  | cons a l ih =>
    intro c
    show (l.foldl applyArg (applyArg c a)).magic = _
    rw [ih]
    cases a <;> simp [applyArg]

/-! ## Claim theorems -/

/-- C7: `SimulationTime` is a 64-bit unsigned nanosecond count, and the
time-unit constants have exactly the values 1, 1000, 10^6, 10^9,
60 * SIMTIME_ONE_SECOND and 3600 * SIMTIME_ONE_SECOND: each larger unit
is the exact nanosecond count of that duration, and every constant is
representable in 64 bits. -/
theorem simtime_unit_constants :
    SIMTIME_ONE_NANOSECOND = 1 ∧
    SIMTIME_ONE_MICROSECOND = 1000 ∧
    SIMTIME_ONE_MILLISECOND = 1000000 ∧
    SIMTIME_ONE_SECOND = 1000000000 ∧
    SIMTIME_ONE_MINUTE = 60 * SIMTIME_ONE_SECOND ∧
    SIMTIME_ONE_HOUR = 3600 * SIMTIME_ONE_SECOND ∧
    SIMTIME_ONE_MICROSECOND = 1000 * SIMTIME_ONE_NANOSECOND ∧
    SIMTIME_ONE_MILLISECOND = 1000 * SIMTIME_ONE_MICROSECOND ∧
    SIMTIME_ONE_SECOND = 1000 * SIMTIME_ONE_MILLISECOND ∧
    SIMTIME_ONE_HOUR < simTimeBound := by
  decide

/-- C10: `SIMTIME_INVALID` is `G_MAXUINT64 = 2^64 - 1` and is strictly
greater than every defined time-unit constant, so no valid unit constant
equals the invalid sentinel. -/
theorem simtime_invalid_sentinel :
    SIMTIME_INVALID = 2 ^ 64 - 1 ∧
    SIMTIME_ONE_NANOSECOND < SIMTIME_INVALID ∧
    SIMTIME_ONE_MICROSECOND < SIMTIME_INVALID ∧
    SIMTIME_ONE_MILLISECOND < SIMTIME_INVALID ∧
    SIMTIME_ONE_SECOND < SIMTIME_INVALID ∧
    SIMTIME_ONE_MINUTE < SIMTIME_INVALID ∧
    SIMTIME_ONE_HOUR < SIMTIME_INVALID := by
  decide

/-- C3: the lifecycle state machine Uninitialized → Live → Destroyed is
enforced by the liveness tag: a configuration returned by
`configuration_new` (which runs `MAGIC_INIT`) passes `MAGIC_ASSERT`;
after destruction (`MAGIC_CLEAR` via `configuration_free`, which sets the
tag to 0 ≠ MAGIC_VALUE) the liveness assertion fails, including after a
second destroy; 0 is distinct from `MAGIC_VALUE`. -/
theorem configuration_lifecycle :
    (∀ argv c, configuration_new argv = Except.ok c → MAGIC_ASSERT c = true) ∧
    (∀ c, MAGIC_ASSERT (MAGIC_INIT c) = true) ∧
    (∀ c, MAGIC_ASSERT (configuration_free c) = false) ∧
    (∀ c, MAGIC_ASSERT (configuration_free (configuration_free c)) = false) ∧
    (0 : Nat) ≠ MAGIC_VALUE := by
  refine ⟨?_, ?_, ?_, ?_, by decide⟩
  · intro argv c h
    unfold configuration_new at h
    cases hp : parseArgs (argv.drop 1) defaultConfig with
    | ok c0 =>
      rw [hp] at h
      simp only [Except.map] at h
      cases h
      show ((MAGIC_INIT c0).magic == MAGIC_VALUE) = true
      simp [MAGIC_INIT]
    | error e =>
      rw [hp] at h
      simp only [Except.map] at h
      cases h
  · intro c
    show ((MAGIC_INIT c).magic == MAGIC_VALUE) = true
    simp [MAGIC_INIT]
  · intro c
    show ((0 : Nat) == MAGIC_VALUE) = false
    decide
  · intro c
    show ((0 : Nat) == MAGIC_VALUE) = false
    decide

/-- Witness for C3: at the concrete argument vector `["shadow"]`,
construction succeeds and the returned object passes the liveness
assertion. -/
theorem configuration_lifecycle_witness :
    MAGIC_ASSERT (MAGIC_INIT defaultConfig) = true :=
  configuration_lifecycle.1 ["shadow"] (MAGIC_INIT defaultConfig) rfl

/-- C8 counterexample: the claim says the liveness-tag check is compiled
in only for debug builds and is a no-op in release builds; but the
block's condition is `#if 1`, so in a non-debug build the macros are
still compiled in. -/
theorem magic_guard_release_counterexample :
    ¬ magicGuardCompiledIn false = false := by
  decide

/-- C8 (amended): the lifecycle guard is intended as a development-time
safety net, but the header compiles the MAGIC macros in unconditionally
(`#if 1`, with a todo to add `#ifdef DEBUG`); the `#else` branch that
would make the liveness check a no-op exists but is not selected for any
build. -/
theorem magic_guard_unconditional :
    (∀ b : Bool, magicGuardCompiledIn b = true) ∧
    (∀ c : Configuration, MAGIC_ASSERT_disabled c = true) :=
  ⟨fun _ => rfl, fun _ => rfl⟩

/-- C4: the log-level resolver is total and never fails: every
unrecognized log-level string (and any stored configuration input equal
to such a string) maps to the single documented default severity rather
than producing an error. -/
theorem getLogLevel_total_default (s : String) (h : ¬ recognizedLevel s) :
    resolveLogLevel s = defaultSeverity ∧
    ∀ c : Configuration, c.logLevelInput = some s →
      configuration_getLogLevel c = defaultSeverity := by
  have hres : resolveLogLevel s = defaultSeverity := by
    unfold recognizedLevel at h
    push_neg at h
    obtain ⟨h1, h2, h3, h4⟩ := h
    unfold resolveLogLevel
    rw [if_neg h1, if_neg h2, if_neg h3, if_neg h4]
  refine ⟨hres, fun c hc => ?_⟩
  unfold configuration_getLogLevel
  rw [hc]
  exact hres

/-- Witness for C4: the unrecognized string "bogus" resolves to the
default severity, both directly and through a configuration object. -/
theorem getLogLevel_total_default_witness :
    resolveLogLevel "bogus" = defaultSeverity ∧
    configuration_getLogLevel { defaultConfig with logLevelInput := some "bogus" } =
      defaultSeverity :=
  ⟨(getLogLevel_total_default "bogus" (by decide)).1,
   (getLogLevel_total_default "bogus" (by decide)).2 _ rfl⟩

/-- C5: the log-level resolver is case-insensitive: any two strings that
agree up to ASCII case (in particular a recognized level name and any
case variant of it) resolve to the same severity. -/
theorem getLogLevel_caseInsensitive (s t : String) (h : strLower s = strLower t) :
    resolveLogLevel s = resolveLogLevel t := by
  unfold resolveLogLevel
  rw [h]

/-- Witness for C5: "DEBUG" and "debug" resolve to the same severity,
namely the debug severity. -/
theorem getLogLevel_caseInsensitive_witness :
    resolveLogLevel "DEBUG" = resolveLogLevel "debug" ∧
    resolveLogLevel "debug" = Severity.debug :=
  ⟨getLogLevel_caseInsensitive "DEBUG" "debug" (by decide), by decide⟩

/-- C9: the configuration object is immutable after construction: the
accessor `configuration_getLogLevel` leaves every field of the object
unchanged (its state-passing form returns the state as received), and its
result depends only on the stored `logLevelInput`, so no access mutates
the scalar fields set by `configuration_new`. -/
theorem configuration_immutable :
    (∀ c, (configuration_getLogLevelS c).2 = c) ∧
    (∀ c c2 : Configuration, c.logLevelInput = c2.logLevelInput →
      configuration_getLogLevel c = configuration_getLogLevel c2) := by
  refine ⟨fun c => rfl, fun c c2 hin => ?_⟩
  unfold configuration_getLogLevel
  rw [hin]

/-- Witness for C9: at a concrete live configuration, the accessor
returns the object unchanged, and two objects that share the stored
log-level string resolve alike. -/
theorem configuration_immutable_witness :
    (configuration_getLogLevelS (MAGIC_INIT defaultConfig)).2 = MAGIC_INIT defaultConfig ∧
    configuration_getLogLevel defaultConfig =
      configuration_getLogLevel (MAGIC_INIT defaultConfig) :=
  ⟨configuration_immutable.1 (MAGIC_INIT defaultConfig),
   configuration_immutable.2 defaultConfig (MAGIC_INIT defaultConfig) rfl⟩

instance : DecidablePred Arg.wf := fun a =>
  match a with
  | Arg.logLevel _ => Decidable.isTrue trivial
  | Arg.workers _ => Decidable.isTrue trivial
  | Arg.version => Decidable.isTrue trivial
  | Arg.runAhead _ => Decidable.isTrue trivial
  | Arg.pingExample => Decidable.isTrue trivial
  | Arg.echoExample => Decidable.isTrue trivial
  | Arg.fileExample => Decidable.isTrue trivial
  | Arg.positional s => inferInstanceAs (Decidable (s ≠ "" ∧ isFlagToken s = false))

/-- C1: for every argument vector made of recognized flags of the three
option groups with in-range (non-negative) numeric values and well-formed
positional filenames, `configuration_new` succeeds and every field of the
returned configuration equals the value supplied on the command line (the
last occurrence of a repeated value flag; the glib default where a flag
was omitted): a round trip from supplied values to stored fields. -/
theorem configuration_new_roundtrip (l : List Arg) (hl : ∀ a ∈ l, a.wf) :
    ∃ c, configuration_new ("shadow" :: renderArgs l) = Except.ok c ∧
      c.logLevelInput = lastLogLevelArg l ∧
      c.nWorkerThreads = ((lastWorkersArg l).getD 0 : Nat) ∧
      c.printSoftwareVersion = anyVersionArg l ∧
      c.minRunAhead = ((lastRunAheadArg l).getD 0 : Nat) ∧
      c.runPingExample = anyPingArg l ∧
      c.runEchoExample = anyEchoArg l ∧
      c.runFileExample = anyFileArg l ∧
      c.inputXMLFilenames = positionalsOf l := by
  have hmain : configuration_new ("shadow" :: renderArgs l) =
      Except.ok (MAGIC_INIT (l.foldl applyArg defaultConfig)) := by
    show (parseArgs (renderArgs l) defaultConfig).map MAGIC_INIT = _
    have h := parseArgs_renderArgs l hl [] defaultConfig
    rw [List.append_nil] at h
    rw [h]
    rfl
  refine ⟨MAGIC_INIT (l.foldl applyArg defaultConfig), hmain,
    ?_, ?_, ?_, ?_, ?_, ?_, ?_, ?_⟩
  · show (l.foldl applyArg defaultConfig).logLevelInput = lastLogLevelArg l
    rw [foldl_logLevelInput]
    cases lastLogLevelArg l <;> rfl
  · show (l.foldl applyArg defaultConfig).nWorkerThreads = _
    rw [foldl_nWorkerThreads]
    cases lastWorkersArg l <;> rfl
  · show (l.foldl applyArg defaultConfig).printSoftwareVersion = _
    rw [foldl_printSoftwareVersion]
    simp [defaultConfig]
  · show (l.foldl applyArg defaultConfig).minRunAhead = _
    rw [foldl_minRunAhead]
    cases lastRunAheadArg l <;> rfl
  · show (l.foldl applyArg defaultConfig).runPingExample = _
    rw [foldl_runPingExample]
    simp [defaultConfig]
  · show (l.foldl applyArg defaultConfig).runEchoExample = _
    rw [foldl_runEchoExample]
    simp [defaultConfig]
  · show (l.foldl applyArg defaultConfig).runFileExample = _
    rw [foldl_runFileExample]
    simp [defaultConfig]
  · show (l.foldl applyArg defaultConfig).inputXMLFilenames = _
    rw [foldl_inputXMLFilenames]
    rfl

/-- Witness for C1: the spec's scenario
`--workers 4 --log-level warning a.xml b.xml` round-trips: all supplied
values are stored and all omitted flags keep their defaults. -/
theorem configuration_new_roundtrip_witness :
    ∃ c, configuration_new ("shadow" :: renderArgs
        [Arg.workers 4, Arg.logLevel "warning",
         Arg.positional "a.xml", Arg.positional "b.xml"]) = Except.ok c ∧
      c.logLevelInput = lastLogLevelArg
        [Arg.workers 4, Arg.logLevel "warning",
         Arg.positional "a.xml", Arg.positional "b.xml"] ∧
      c.nWorkerThreads = ((lastWorkersArg
        [Arg.workers 4, Arg.logLevel "warning",
         Arg.positional "a.xml", Arg.positional "b.xml"]).getD 0 : Nat) ∧
      c.printSoftwareVersion = anyVersionArg
        [Arg.workers 4, Arg.logLevel "warning",
         Arg.positional "a.xml", Arg.positional "b.xml"] ∧
      c.minRunAhead = ((lastRunAheadArg
        [Arg.workers 4, Arg.logLevel "warning",
         Arg.positional "a.xml", Arg.positional "b.xml"]).getD 0 : Nat) ∧
      c.runPingExample = anyPingArg
        [Arg.workers 4, Arg.logLevel "warning",
         Arg.positional "a.xml", Arg.positional "b.xml"] ∧
      c.runEchoExample = anyEchoArg
        [Arg.workers 4, Arg.logLevel "warning",
         Arg.positional "a.xml", Arg.positional "b.xml"] ∧
      c.runFileExample = anyFileArg
        [Arg.workers 4, Arg.logLevel "warning",
         Arg.positional "a.xml", Arg.positional "b.xml"] ∧
      c.inputXMLFilenames = positionalsOf
        [Arg.workers 4, Arg.logLevel "warning",
         Arg.positional "a.xml", Arg.positional "b.xml"] :=
  configuration_new_roundtrip
    [Arg.workers 4, Arg.logLevel "warning",
     Arg.positional "a.xml", Arg.positional "b.xml"] (by decide)

/-- C6: the `inputXMLFilenames` list of the constructed configuration is
exactly the positional (non-flag) arguments in command-line order, with
duplicates preserved. -/
theorem configuration_new_inputOrder (l : List Arg) (hl : ∀ a ∈ l, a.wf) :
    ∃ c, configuration_new ("shadow" :: renderArgs l) = Except.ok c ∧
      c.inputXMLFilenames = positionalsOf l := by
  have h := parseArgs_renderArgs l hl [] defaultConfig
  rw [List.append_nil] at h
  refine ⟨MAGIC_INIT (l.foldl applyArg defaultConfig), ?_, ?_⟩
  · show (parseArgs (renderArgs l) defaultConfig).map MAGIC_INIT = _
    rw [h]
    rfl
  · show (l.foldl applyArg defaultConfig).inputXMLFilenames = _
    rw [foldl_inputXMLFilenames]
    rfl

/-- Witness for C6: positional arguments `["a.xml", "b.xml"]` yield
exactly the list `["a.xml", "b.xml"]`. -/
theorem configuration_new_inputOrder_witness :
    ∃ c, configuration_new ("shadow" :: renderArgs
        [Arg.positional "a.xml", Arg.positional "b.xml"]) = Except.ok c ∧
      c.inputXMLFilenames = positionalsOf
        [Arg.positional "a.xml", Arg.positional "b.xml"] :=
  configuration_new_inputOrder
    [Arg.positional "a.xml", Arg.positional "b.xml"] (by decide)

/-- An unknown flag aborts the parse immediately with a diagnostic,
whatever follows it. -/
theorem parseArgs_unknown (f : String) (hf : classifyToken f = TokenKind.unknownFlag)
    (more : List String) (c : Configuration) :
    parseArgs (f :: more) c = Except.error ("unknown option " ++ f) := by
  show parseClassified ((classifyToken f, f) ::
    more.map (fun x => (classifyToken x, x))) c = _
  rw [hf]
  rfl

/-- A recognized integer flag whose value is malformed or negative aborts
the parse immediately with a diagnostic, whatever follows it. -/
theorem parseArgs_badIntValue (t v : String)
    (ht : classifyToken t = TokenKind.workersFlag ∨
      classifyToken t = TokenKind.runAheadFlag)
    (hv : parseIntStr v = none ∨ ∃ n : Int, parseIntStr v = some n ∧ n < 0)
    (more : List String) (c : Configuration) :
    ∃ e, parseArgs (t :: v :: more) c = Except.error e := by
  show ∃ e, parseClassified ((classifyToken t, t) :: (classifyToken v, v) ::
    more.map (fun x => (classifyToken x, x))) c = Except.error e
  rcases ht with ht | ht
  · rw [ht]
    rcases hv with hv | ⟨n, hv, hn⟩
    · refine ⟨"malformed integer value for option " ++ t, ?_⟩
      show (match parseIntStr v with
        | none => Except.error ("malformed integer value for option " ++ t)
        | some n =>
          if n < 0 then Except.error ("out-of-range value for option " ++ t)
          else parseClassified (more.map (fun x => (classifyToken x, x)))
            { c with nWorkerThreads := n } : Except String Configuration) = _
      rw [hv]
    · refine ⟨"out-of-range value for option " ++ t, ?_⟩
      show (match parseIntStr v with
        | none => Except.error ("malformed integer value for option " ++ t)
        | some n =>
          if n < 0 then Except.error ("out-of-range value for option " ++ t)
          else parseClassified (more.map (fun x => (classifyToken x, x)))
            { c with nWorkerThreads := n } : Except String Configuration) = _
      rw [hv]
      simp only []
      rw [if_pos hn]
  · rw [ht]
    rcases hv with hv | ⟨n, hv, hn⟩
    · refine ⟨"malformed integer value for option " ++ t, ?_⟩
      show (match parseIntStr v with
        | none => Except.error ("malformed integer value for option " ++ t)
        | some n =>
          if n < 0 then Except.error ("out-of-range value for option " ++ t)
          else parseClassified (more.map (fun x => (classifyToken x, x)))
            { c with minRunAhead := n } : Except String Configuration) = _
      rw [hv]
    · refine ⟨"out-of-range value for option " ++ t, ?_⟩
      show (match parseIntStr v with
        | none => Except.error ("malformed integer value for option " ++ t)
        | some n =>
          if n < 0 then Except.error ("out-of-range value for option " ++ t)
          else parseClassified (more.map (fun x => (classifyToken x, x)))
            { c with minRunAhead := n } : Except String Configuration) = _
      rw [hv]
      simp only []
      rw [if_pos hn]

/-- C2: any argument vector containing an unknown flag, or a recognized
integer flag with a malformed or out-of-range (negative) value, makes
`configuration_new` fail and return no object, only a diagnostic (the
error string models the message printed to stderr) — whatever valid
arguments precede the offending one and whatever follows it.  Parsing is
all-or-nothing: the `Except.error` result carries no configuration, so no
partial configuration is ever returned. -/
theorem configuration_new_rejects (l : List Arg) (hl : ∀ a ∈ l, a.wf)
    (bad more : List String)
    (hbad :
      (∃ f, bad = [f] ∧ classifyToken f = TokenKind.unknownFlag) ∨
      (∃ t v, bad = [t, v] ∧
        (classifyToken t = TokenKind.workersFlag ∨
          classifyToken t = TokenKind.runAheadFlag) ∧
        (parseIntStr v = none ∨ ∃ n : Int, parseIntStr v = some n ∧ n < 0))) :
    ∃ e, configuration_new ("shadow" :: (renderArgs l ++ (bad ++ more))) =
      Except.error e := by
  have h := parseArgs_renderArgs l hl (bad ++ more) defaultConfig
  obtain ⟨f, rfl, hf⟩ | ⟨t, v, rfl, ht, hv⟩ := hbad
  · refine ⟨"unknown option " ++ f, ?_⟩
    show (parseArgs (renderArgs l ++ ([f] ++ more)) defaultConfig).map MAGIC_INIT = _
    rw [h]
    show (parseArgs (f :: more) (l.foldl applyArg defaultConfig)).map MAGIC_INIT = _
    rw [parseArgs_unknown f hf more]
    rfl
  · obtain ⟨e, he⟩ :=
      parseArgs_badIntValue t v ht hv more (l.foldl applyArg defaultConfig)
    refine ⟨e, ?_⟩
    show (parseArgs (renderArgs l ++ ([t, v] ++ more)) defaultConfig).map MAGIC_INIT = _
    rw [h]
    show (parseArgs (t :: v :: more) (l.foldl applyArg defaultConfig)).map MAGIC_INIT = _
    rw [he]
    rfl

/-- Witness for C2: the spec's scenario `--workers -1` (an out-of-range
numeric value) fails, and so does the unknown flag `--bogus`. -/
theorem configuration_new_rejects_witness :
    (∃ e, configuration_new ("shadow" :: (renderArgs [] ++ (["--workers", "-1"] ++ []))) =
      Except.error e) ∧
    (∃ e, configuration_new ("shadow" ::
        (renderArgs [Arg.positional "a.xml"] ++ (["--bogus"] ++ ["b.xml"]))) =
      Except.error e) :=
  ⟨configuration_new_rejects [] (by decide) ["--workers", "-1"] []
    (Or.inr ⟨"--workers", "-1", rfl, Or.inl (by decide),
      Or.inr ⟨-1, by decide, by decide⟩⟩),
   configuration_new_rejects [Arg.positional "a.xml"] (by decide) ["--bogus"] ["b.xml"]
    (Or.inl ⟨"--bogus", rfl, by decide⟩)⟩
